import Mathlib

/-!
Shallow embedding of the recommendation / survey-scoring / submission core of
the cs5500 backend (files `app/services/surveys.py`, `app/services/submissions.py`,
`app/services/recommendations.py` and the mapping-edit helper in
`app/api/routes/courses.py`), together with proofs of the specification claims.

Modelling conventions:
* Python `dict[str, T]` values are association lists `List (String × T)`
  preserving insertion order (as CPython dicts do);
* SQLAlchemy tables are `List row` values; `query.first()` under
  `ORDER BY updated_at DESC` is modelled as the left-most row with the maximal
  `updated_at`; `ORDER BY random()` is modelled with an explicit `seed`
  parameter (`seed % length` selection);
* timestamps are `Nat`; fresh UUID primary keys are explicit parameters where
  a claim needs them and omitted from rows where no claim reads them;
* numeric JSON scores are modelled as `Int` (floating point is out of scope);
* Python truthiness on optional strings / lists / dicts is modelled explicitly
  by the `truthy*` helpers below.
-/

/-! ## Python-semantics helpers -/

/-- Truthiness of a Python `Optional[str]`: `None` and `""` are falsy. -/
def truthyStr : Option String → Bool
  | none => false
  | some s => s ≠ ""

/-- Python `a or b` on two optional strings (left value kept when truthy). -/
def pyOrO (a b : Option String) : Option String :=
  if truthyStr a then a else b

/-- Python `str(x)` on an optional string (`str(None) = "None"`). -/
def pyStr : Option String → String
  | none => "None"
  | some s => s

/-- Strict lexicographic order on code-point lists (Python string `<`). -/
def strLtB : List Char → List Char → Bool
  | [], [] => false
  | [], _ :: _ => true
  | _ :: _, [] => false
  | x :: xs, y :: ys =>
    if x.toNat < y.toNat then true
    else if y.toNat < x.toNat then false
    else strLtB xs ys

/-- Reflexive lexicographic order on code-point lists (Python string `<=`). -/
def strLeB : List Char → List Char → Bool
  | [], _ => true
  | _ :: _, [] => false
  | x :: xs, y :: ys =>
    if x.toNat < y.toNat then true
    else if y.toNat < x.toNat then false
    else strLeB xs ys

/-- Python `a < b` on strings (lexicographic by code point). -/
def pyLt (a b : String) : Bool := strLtB a.data b.data

/-- Python `a <= b` on strings. -/
def pyLe (a b : String) : Bool := strLeB a.data b.data

/-- Python `s.strip()` (whitespace stripped from both ends). -/
def pyStrip (s : String) : String :=
  String.mk (((s.data.dropWhile Char.isWhitespace).reverse.dropWhile Char.isWhitespace).reverse)

/-- Replace the value stored under `k`, keeping its position; append `(k, v)`
at the end when `k` is absent.  Models assignment into a CPython dict. -/
def assocSet {α : Type} : List (String × α) → String → α → List (String × α)
  | [], k, v => [(k, v)]
  | (k', v') :: t, k, v =>
    if k' = k then (k', v) :: t else (k', v') :: assocSet t k v

/-- Apply `f` to the first element satisfying `p`, leaving the rest unchanged.
Models an in-place ORM mutation of `query(...).first()`. -/
def updateFirst {α : Type} (p : α → Bool) (f : α → α) : List α → List α
  | [] => []
  | x :: t => if p x then f x :: t else x :: updateFirst p f t

/-- Insert a string into a `≤`-sorted list, keeping it sorted. -/
def insertSorted (a : String) : List String → List String
  | [] => [a]
  | b :: t => if pyLe a b then a :: b :: t else b :: insertSorted a t

/-- Sort a list of strings ascending (models Python `sorted`). -/
def sortStrings (l : List String) : List String :=
  l.foldr insertSorted []

/-! ## `app/services/surveys.py` -/

/-- One option dict of a survey question, with the JSON fields the scoring
code reads (`id` / `option_id` / `value` / `label` / `text` and the
category → score map). -/
structure SurveyOption where
  id : Option String
  option_id : Option String
  value : Option String
  label : Option String
  text : Option String
  scores : List (String × Int)
deriving DecidableEq, Repr

/-- One question dict of a survey snapshot (`id` / `question_id` / `text` /
`question` plus the option list). -/
structure SurveyQuestion where
  id : Option String
  question_id : Option String
  text : Option String
  question : Option String
  options : List SurveyOption
deriving DecidableEq, Repr

/-- The survey snapshot stored on a session; only its `questions` key is read
by the scoring code. -/
structure SurveySnapshot where
  questions : List SurveyQuestion
deriving DecidableEq, Repr

/-- `extract_learning_style_categories`: the sorted set of category names
appearing in any option's score map. -/
def extract_learning_style_categories (questions : List SurveyQuestion) : List String :=
  sortStrings
    ((questions.map (fun q => q.options.map (fun o => o.scores.map Prod.fst))).flatten.flatten).dedup

/-- The question key `question.get("id") or question.get("question_id")`. -/
def questionKey (q : SurveyQuestion) : Option String :=
  pyOrO q.id q.question_id

/-- The option identifier: `option.get("id") or option.get("option_id") or
option.get("value")`, defaulting to `f"{question_id}_opt_{index}"` only when
the chain yields `None` (an empty string sticks, as in the source). -/
def option_identifier (qid : String) (index : Nat) (o : SurveyOption) : String :=
  match pyOrO (pyOrO o.id o.option_id) o.value with
  | none => qid ++ "_opt_" ++ toString index
  | some s => s

/-- `str(option.get("label") or option.get("text"))` as used in the membership
test of `compute_total_scores` (note Python's `str(None) = "None"`). -/
def option_label_str (o : SurveyOption) : String :=
  pyStr (pyOrO o.label o.text)

/-- The source's membership test
`selected_answer in {str(option_id), str(option_label)}`. -/
def option_matches (qid selected : String) (index : Nat) (o : SurveyOption) : Bool :=
  selected == option_identifier qid index o || selected == option_label_str o

/-- First option (scanning with its enumeration index) matched by the selected
answer; the `break` in the source stops at the first hit. -/
def find_selected_option (qid selected : String) : Nat → List SurveyOption → Option SurveyOption
  | _, [] => none
  | i, o :: rest =>
    if option_matches qid selected i o then some o else find_selected_option qid selected (i + 1) rest

/-- `if category not in totals: totals[category] = 0`. -/
def ensureKey (totals : List (String × Int)) (category : String) : List (String × Int) :=
  if (totals.lookup category).isSome then totals else totals ++ [(category, 0)]

/-- `totals[category] += int(score)` (key known to be present). -/
def addToKey (totals : List (String × Int)) (category : String) (score : Int) : List (String × Int) :=
  assocSet totals category ((totals.lookup category).getD 0 + score)

/-- Add one matched option's score map into the running totals. -/
def addOptionScores (totals : List (String × Int)) (scores : List (String × Int)) :
    List (String × Int) :=
  scores.foldl (fun t cs => addToKey (ensureKey t cs.1) cs.1 cs.2) totals

/-- The body of the question loop of `compute_total_scores`: skip a question
with a falsy key, a falsy (absent or empty) selected answer, or no matching
option; otherwise add the first matching option's scores. -/
def scoreQuestionStep (answers : List (String × String)) (totals : List (String × Int))
    (question : SurveyQuestion) : List (String × Int) :=
  match questionKey question with
  | none => totals
  | some qid =>
    if qid = "" then totals
    else
      match answers.lookup qid with
      | none => totals
      | some selected =>
        if selected = "" then totals
        else
          match find_selected_option qid selected 0 question.options with
          | none => totals
          | some opt => addOptionScores totals opt.scores

/-- `compute_total_scores`: initialise every extracted category to 0, then for
each question with a truthy key and a truthy selected answer, add the scores of
the first matching option. -/
def compute_total_scores (snapshot : SurveySnapshot) (answers : List (String × String)) :
    List (String × Int) :=
  snapshot.questions.foldl (scoreQuestionStep answers)
    ((extract_learning_style_categories snapshot.questions).map (fun c => (c, 0)))

/-- Python `best_category or category` where `best_category` may still be
`None` (and `""` is falsy). -/
def pyOrBest (best : Option String) (category : String) : String :=
  match best with
  | none => category
  | some s => if s = "" then category else s

/-- One iteration of the `determine_learning_style` loop: the running state is
`(best_category, best_score)`, both `None` initially. -/
def dlsStep (best : Option String × Option Int) (p : String × Int) :
    Option String × Option Int :=
  match best.2 with
  | none => (some p.1, some p.2)
  | some bs =>
    if p.2 > bs ∨ (p.2 = bs ∧ pyLt p.1 (pyOrBest best.1 p.1)) then (some p.1, some p.2) else best

/-- `determine_learning_style`: highest total wins, ties go to the
lexicographically smallest category name; `None` for an empty map. -/
def determine_learning_style (total_scores : List (String × Int)) : Option String :=
  if total_scores.isEmpty then none
  else (total_scores.foldl dlsStep (none, none)).1

/-- `build_answer_details`: the per-option text as the details builder computes
it (`option.get("text") or option.get("label") or str(option_id)`). -/
def detail_option_text (qid : String) (index : Nat) (o : SurveyOption) : String :=
  match pyOrO (pyOrO o.text o.label) (some (option_identifier qid index o)) with
  | some s => s
  | none => option_identifier qid index o

/-- One `{option_id, text}` entry of an answer detail. -/
structure OptionDetail where
  option_id : String
  text : String
deriving DecidableEq, Repr

/-- The per-question detail stored by `build_answer_details`. -/
structure AnswerDetail where
  question_id : String
  question_text : String
  selected_option_id : String
  selected_option_text : String
  options : List OptionDetail
deriving DecidableEq, Repr

/-- The option loop of `build_answer_details`: collects every option's
`{option_id, text}` entry and remembers the last option matched by the
selected answer (the loop has no `break`). -/
def build_detail_scan (qid selected : String) :
    Nat → List SurveyOption → List OptionDetail × Option String × Option String →
    List OptionDetail × Option String × Option String
  | _, [], st => st
  | i, o :: rest, (acc, selId, selText) =>
    let oid := option_identifier qid i o
    let otext := detail_option_text qid i o
    let st' :=
      if selected == oid || selected == otext then
        (acc ++ [⟨oid, otext⟩], some oid, some otext)
      else (acc ++ [⟨oid, otext⟩], selId, selText)
    build_detail_scan qid selected (i + 1) rest st'

/-- `build_answer_details`: per-question mapping enriching each truthy selected
answer with question/option text; a question contributes only when some option
was matched with a truthy option id. -/
def build_answer_details (snapshot : SurveySnapshot) (answers : List (String × String)) :
    List (String × AnswerDetail) :=
  snapshot.questions.foldl
    (fun details q =>
      match questionKey q with
      | none => details
      | some qid =>
        if qid = "" then details
        else
          match answers.lookup qid with
          | none => details
          | some selected =>
            if selected = "" then details
            else
              let qtext :=
                match pyOrO (pyOrO q.text q.question) (some qid) with
                | some s => s
                | none => qid
              match build_detail_scan qid selected 0 q.options ([], none, none) with
              | (optsDetail, some sid, selText) =>
                if sid ≠ "" then
                  assocSet details qid ⟨qid, qtext, sid, selText.getD "", optsDetail⟩
                else details
              | (_, none, _) => details)
    []

/-! ## Data model (`app/models/*.py`, columns read by the embedded services) -/

/-- A registered student (only its id is read by the embedded code). -/
structure Student where
  id : String
deriving DecidableEq, Repr

/-- A class session (only its id is read by the embedded code). -/
structure ClassSession where
  id : String
deriving DecidableEq, Repr

/-- A course; the mapping-edit endpoint reads its id and its nullable JSON
lists of known learning-style categories and mood labels. -/
structure Course where
  id : String
  learning_style_categories : Option (List String)
  mood_labels : Option (List String)
deriving DecidableEq, Repr

/-- The `answers_json` payload written by `upsert_submission`
(`{"raw_answers": ..., "details": ...}`). -/
structure AnswersPayload where
  raw_answers : List (String × String)
  details : List (String × AnswerDetail)
deriving DecidableEq, Repr

/-- A row of the `submissions` table (columns written/read by
`upsert_submission`). -/
structure Submission where
  id : String
  session_id : String
  course_id : String
  student_id : Option String
  guest_id : Option String
  guest_name : Option String
  mood : String
  answers_json : Option AnswersPayload
  total_scores : Option (List (String × Int))
  is_baseline_update : Bool
  status : String
deriving DecidableEq, Repr

/-- A row of the `course_student_profiles` table (uuid primary key omitted:
no embedded claim reads it). -/
structure CourseStudentProfile where
  course_id : String
  student_id : Option String
  guest_id : Option String
  latest_submission_id : Option String
  profile_category : String
  profile_scores_json : List (String × Int)
  is_current : Bool
deriving DecidableEq, Repr

/-- A row of the `activities` table (columns read by the recommendation
service). -/
structure Activity where
  id : String
  tags : List String
  updated_at : Nat
deriving DecidableEq, Repr

/-- A row of the `course_recommendations` table (uuid primary key omitted:
no embedded claim reads it). -/
structure CourseRecommendation where
  course_id : String
  learning_style : Option String
  mood : Option String
  activity_id : String
  is_auto : Bool
  updated_at : Nat
deriving DecidableEq, Repr

/-- The application settings read by `pick_system_default_activity`. -/
structure Settings where
  system_default_activity_id : Option String
deriving DecidableEq, Repr

/-- The slice of the database the recommendation code touches. -/
structure DB where
  recommendations : List CourseRecommendation
  activities : List Activity
deriving DecidableEq, Repr

/-! ## `app/services/submissions.py` -/

/-- The participant key filter of `upsert_submission`: same session, and the
student id when a student is given, otherwise the guest id (SQLAlchemy turns
`== None` into `IS NULL`, i.e. plain `Option` equality). -/
def submissionKeyFilter (session : ClassSession) (student : Option Student)
    (guest_id : Option String) (s : Submission) : Bool :=
  s.session_id == session.id &&
    (match student with
     | some st => s.student_id == some st.id
     | none => s.guest_id == guest_id)

/-- Truthiness of a Python `Optional[Dict]`: `None` and `{}` are falsy. -/
def truthyDict {α : Type} : Option (List α) → Bool
  | none => false
  | some l => !l.isEmpty

/-- The `answers_payload` computed at the top of `upsert_submission`. -/
def upsert_answers_payload (answers : Option (List (String × String)))
    (survey_snapshot : Option SurveySnapshot) : Option AnswersPayload :=
  match answers with
  | some a =>
    if !a.isEmpty then
      some ⟨a, match survey_snapshot with
               | some snap => build_answer_details snap a
               | none => []⟩
    else none
  | none => none

/-- Line 60 of the source:
`status = "completed" if answers else "completed"`. -/
def upsert_status (answers : Option (List (String × String))) : String :=
  if truthyDict answers then "completed" else "completed"

/-- The fresh row built by the insert branch of `upsert_submission` (the uuid
primary-key default is the explicit `fresh_id` parameter). -/
def upsertNewRow (session : ClassSession) (course : Course) (mood : String)
    (answers : Option (List (String × String))) (total_scores : Option (List (String × Int)))
    (is_baseline_update : Bool) (student : Option Student)
    (guest_id guest_name : Option String) (survey_snapshot : Option SurveySnapshot)
    (fresh_id : String) : Submission :=
  { id := fresh_id, session_id := session.id, course_id := course.id,
    student_id := (match student with | some st => some st.id | none => none),
    guest_id := (match student with | some _ => none | none => guest_id),
    guest_name := (match student with | some _ => none | none => guest_name),
    mood := mood, answers_json := upsert_answers_payload answers survey_snapshot,
    total_scores := total_scores, is_baseline_update := is_baseline_update,
    status := upsert_status answers }

/-- `upsert_submission`: mutate the first submission matching the
(session, participant) key, or insert a new row. -/
def upsert_submission (submissions : List Submission) (session : ClassSession) (course : Course)
    (mood : String) (answers : Option (List (String × String)))
    (total_scores : Option (List (String × Int))) (is_baseline_update : Bool)
    (student : Option Student) (guest_id guest_name : Option String)
    (survey_snapshot : Option SurveySnapshot) (fresh_id : String) : List Submission :=
  match submissions.find? (submissionKeyFilter session student guest_id) with
  | some _ =>
    updateFirst (submissionKeyFilter session student guest_id)
      (fun s => { s with course_id := course.id, mood := mood,
                         answers_json := upsert_answers_payload answers survey_snapshot,
                         total_scores := total_scores, is_baseline_update := is_baseline_update,
                         status := upsert_status answers }) submissions
  | none =>
    submissions ++
      [upsertNewRow session course mood answers total_scores is_baseline_update student
         guest_id guest_name survey_snapshot fresh_id]

/-- The participant filter of `update_course_student_profile` (course plus
student id or guest id). -/
def profileKeyFilter (course : Course) (student : Option Student) (guest_id : Option String)
    (p : CourseStudentProfile) : Bool :=
  p.course_id == course.id &&
    (match student with
     | some st => p.student_id == some st.id
     | none => p.guest_id == guest_id)

/-- The fresh current row inserted by `update_course_student_profile`. -/
def profileNewRow (course : Course) (submission : Submission) (learning_style : String)
    (total_scores : List (String × Int)) (student : Option Student) (guest_id : Option String) :
    CourseStudentProfile :=
  { course_id := course.id,
    student_id := (match student with | some st => some st.id | none => none),
    guest_id := (match student with | some _ => none | none => guest_id),
    latest_submission_id := some submission.id,
    profile_category := learning_style,
    profile_scores_json := total_scores,
    is_current := true }

/-- `update_course_student_profile`: bulk-set `is_current = false` on every
profile row for the (course, participant) pair, then insert the new current
row referencing the triggering submission. -/
def update_course_student_profile (profiles : List CourseStudentProfile) (course : Course)
    (submission : Submission) (learning_style : String) (total_scores : List (String × Int))
    (student : Option Student) (guest_id : Option String) : List CourseStudentProfile :=
  let retired := profiles.map
    (fun p => if profileKeyFilter course student guest_id p then { p with is_current := false } else p)
  retired ++ [profileNewRow course submission learning_style total_scores student guest_id]

/-! ## `app/services/recommendations.py` -/

/-- `_normalize_default`: `None`, blank, and the sentinel tokens map to `None`
(the wildcard); otherwise the *original* value is returned (the source
returns `value`, not `trimmed`). -/
def _normalize_default (value : Option String) : Option String :=
  match value with
  | none => none
  | some v =>
    let trimmed := pyStrip v
    if trimmed = "" then none
    else if trimmed = "*" ∨ trimmed = "ANY" ∨ trimmed = "any" ∨ trimmed = "default" then none
    else some v

/-- The SQL `field IS NULL OR field = ''` filter used for wildcard keys. -/
def nullish (v : Option String) : Bool := v == none || v == some ""

/-- Column filter for one (normalized) key position: wildcard matches
null-or-empty, a concrete value matches by equality. -/
def keyFilter (normalized stored : Option String) : Bool :=
  match normalized with
  | none => nullish stored
  | some s => stored == some s

/-- The row filter built by `_query_recommendation` (normalizing both key
positions). -/
def recommendationFilter (course_id : String) (learning_style mood : Option String)
    (r : CourseRecommendation) : Bool :=
  r.course_id == course_id &&
  keyFilter (_normalize_default learning_style) r.learning_style &&
  keyFilter (_normalize_default mood) r.mood

/-- `ORDER BY updated_at DESC ... first()`: the left-most row with the maximal
`updated_at`. -/
def firstByUpdatedDesc : List CourseRecommendation → Option CourseRecommendation
  | [] => none
  | r :: rest =>
    match firstByUpdatedDesc rest with
    | none => some r
    | some b => if b.updated_at > r.updated_at then some b else some r

/-- `ORDER BY random() ... first()`, with the randomness pinned by an explicit
seed. -/
def randomFirst {α : Type} (seed : Nat) (l : List α) : Option α :=
  l.get? (seed % l.length)

/-- `_query_recommendation`: filter the course's rows by both normalized key
positions and take the first row under the requested ordering. -/
def _query_recommendation (db : DB) (course_id : String) (learning_style mood : Option String)
    (randomize : Bool) (seed : Nat) : Option CourseRecommendation :=
  let filtered := db.recommendations.filter (recommendationFilter course_id learning_style mood)
  if randomize then randomFirst seed filtered else firstByUpdatedDesc filtered

/-- The joined `recommendation.activity` relation: the activity row referenced
by `activity_id`, if it exists. -/
def rec_activity (db : DB) (r : CourseRecommendation) : Option Activity :=
  db.activities.find? (fun a => a.id == r.activity_id)

def SYSTEM_DEFAULT_ACTIVITY_TAG : String := "__system_default__"

/-- Stable insertion into an `updated_at`-descending list. -/
def insertActivityDesc (a : Activity) : List Activity → List Activity
  | [] => [a]
  | b :: t => if a.updated_at ≥ b.updated_at then a :: b :: t else b :: insertActivityDesc a t

/-- `db.query(Activity).order_by(Activity.updated_at.desc()).all()`. -/
def sortActivitiesDesc (l : List Activity) : List Activity :=
  l.foldr insertActivityDesc []

/-- `pick_system_default_activity`: configured id if it resolves, else the
newest activity carrying the reserved tag, else the newest activity, else
none. -/
def pick_system_default_activity (settings : Settings) (db : DB) : Option Activity :=
  let fromEnv : Option Activity :=
    match settings.system_default_activity_id with
    | some env_id =>
      if env_id ≠ "" then db.activities.find? (fun a => a.id == env_id) else none
    | none => none
  match fromEnv with
  | some a => some a
  | none =>
    match sortActivitiesDesc db.activities with
    | [] => none
    | a0 :: rest =>
      match (a0 :: rest).find? (fun a => a.tags.contains SYSTEM_DEFAULT_ACTIVITY_TAG) with
      | some a => some a
      | none => some a0

/-- `get_recommended_activity`: the six-tier fallback resolver.  Note that the
tier-1/2 guard tests truthiness of the *raw* `learning_style` argument, before
any normalization. -/
def get_recommended_activity (settings : Settings) (db : DB) (course_id : String)
    (mood learning_style : Option String) (seed : Nat) : String × Option Activity :=
  let tier12 : Option (String × Activity) :=
    if truthyStr learning_style then
      match (_query_recommendation db course_id learning_style mood false seed).bind
          (rec_activity db) with
      | some a => some ("style+mood", a)
      | none =>
        match (_query_recommendation db course_id learning_style none false seed).bind
            (rec_activity db) with
        | some a => some ("style-default", a)
        | none => none
    else none
  match tier12 with
  | some (tier, a) => (tier, some a)
  | none =>
    match (_query_recommendation db course_id none mood false seed).bind (rec_activity db) with
    | some a => ("mood-default", some a)
    | none =>
      match (_query_recommendation db course_id none none true seed).bind (rec_activity db) with
      | some a => ("random-course-activity", some a)
      | none =>
        match pick_system_default_activity settings db with
        | some a => ("system-default", some a)
        | none => ("none", none)

/-- The auto-row refresh shared by the three default maintainers: a found row
is touched only when `is_auto` is set and the activity id differs (the
redundant `is_auto = True` re-assignment in the source is a no-op); the
`updated_at` bump models the column's `onupdate` default. -/
def refreshAuto (activity_id : String) (now : Nat) (r : CourseRecommendation) :
    CourseRecommendation :=
  if r.is_auto && r.activity_id != activity_id then
    { r with activity_id := activity_id, updated_at := now }
  else r

/-- Filter for the course's (null, null) global-default row. -/
def globalDefaultFilter (course_id : String) (r : CourseRecommendation) : Bool :=
  r.course_id == course_id && nullish r.learning_style && nullish r.mood

/-- `ensure_course_global_default`: make the (null, null) row exist and track
the system default activity, without touching a manual row. -/
def ensure_course_global_default (settings : Settings) (db : DB) (course_id : String)
    (now : Nat) : List CourseRecommendation :=
  match pick_system_default_activity settings db with
  | none => db.recommendations
  | some activity =>
    if (db.recommendations.find? (globalDefaultFilter course_id)).isSome then
      updateFirst (globalDefaultFilter course_id) (refreshAuto activity.id now) db.recommendations
    else
      db.recommendations ++
        [{ course_id := course_id, learning_style := none, mood := none,
           activity_id := activity.id, is_auto := true, updated_at := now }]

/-- The `latest_for_mood` / `latest_for_style` dict: last write per key,
insertion-ordered. -/
def latestByKey (select : Option String × Option String × String → Option String)
    (patched_pairs : List (Option String × Option String × String)) : List (String × String) :=
  patched_pairs.foldl
    (fun acc p =>
      match select p with
      | none => acc
      | some k => assocSet acc k p.2.2)
    []

/-- Filter for a course's (null, mood) default row. -/
def moodDefaultFilter (course_id mood : String) (r : CourseRecommendation) : Bool :=
  r.course_id == course_id && nullish r.learning_style && r.mood == some mood

/-- Filter for a course's (style, null) default row. -/
def styleDefaultFilter (course_id style : String) (r : CourseRecommendation) : Bool :=
  r.course_id == course_id && r.learning_style == some style && nullish r.mood

/-- `ensure_mood_defaults`: for each mood seen in the just-patched pairs, make
the (null, mood) row exist / track the latest activity, never touching a
manual row. -/
def ensure_mood_defaults (recs : List CourseRecommendation) (course_id : String)
    (patched_pairs : List (Option String × Option String × String)) (now : Nat) :
    List CourseRecommendation :=
  (latestByKey (fun p => p.2.1) patched_pairs).foldl
    (fun recs kv =>
      if (recs.find? (moodDefaultFilter course_id kv.1)).isSome then
        updateFirst (moodDefaultFilter course_id kv.1) (refreshAuto kv.2 now) recs
      else
        recs ++ [{ course_id := course_id, learning_style := none, mood := some kv.1,
                   activity_id := kv.2, is_auto := true, updated_at := now }])
    recs

/-- `ensure_style_defaults`: symmetric to `ensure_mood_defaults`, keyed on
(style, null). -/
def ensure_style_defaults (recs : List CourseRecommendation) (course_id : String)
    (patched_pairs : List (Option String × Option String × String)) (now : Nat) :
    List CourseRecommendation :=
  (latestByKey (fun p => p.1) patched_pairs).foldl
    (fun recs kv =>
      if (recs.find? (styleDefaultFilter course_id kv.1)).isSome then
        updateFirst (styleDefaultFilter course_id kv.1) (refreshAuto kv.2 now) recs
      else
        recs ++ [{ course_id := course_id, learning_style := some kv.1, mood := none,
                   activity_id := kv.2, is_auto := true, updated_at := now }])
    recs

/-- `ensure_defaults_for_course`: global default always, mood and style
defaults only when some pairs were just patched. -/
def ensure_defaults_for_course (settings : Settings) (db : DB) (course_id : String)
    (patched_pairs : List (Option String × Option String × String)) (now : Nat) :
    List CourseRecommendation :=
  let recs1 := ensure_course_global_default settings db course_id now
  if patched_pairs.isEmpty then recs1
  else
    let recs2 := ensure_mood_defaults recs1 course_id patched_pairs now
    ensure_style_defaults recs2 course_id patched_pairs now

/-! ## `_apply_recommendation_mappings` (`app/api/routes/courses.py`) -/

/-- `_normalize_key` (the route-side normalizer): like `_normalize_default`
but returning the *trimmed* value. -/
def _normalize_key (value : Option String) : Option String :=
  match value with
  | none => none
  | some v =>
    let trimmed := pyStrip v
    if trimmed = "" ∨ trimmed = "*" ∨ trimmed = "any" ∨ trimmed = "ANY" ∨ trimmed = "default"
    then none
    else some trimmed

/-- One entry of a manual recommendation-mapping edit. -/
structure CourseRecommendationMapping where
  learning_style : Option String
  mood : Option String
  activity_id : String
deriving DecidableEq, Repr

/-- The typed rejections `_apply_recommendation_mappings` can raise
(HTTP 400/404 with the corresponding detail string). -/
inductive MappingError where
  | unknownLearningStyle (style : String)
  | unknownMood (mood : String)
  | activityNotFound (activity_id : String)
deriving DecidableEq, Repr

/-- The existing-row filter of `_apply_recommendation_mappings` (keys already
normalized by `_normalize_key`). -/
def mappingRowFilter (course_id : String) (learning_style mood : Option String)
    (r : CourseRecommendation) : Bool :=
  r.course_id == course_id && keyFilter learning_style r.learning_style &&
    keyFilter mood r.mood

/-- The mapping loop of `_apply_recommendation_mappings`, threading the
recommendation table and the `patched_pairs` accumulator (a mapping skipped by
the manual-row guard is appended to neither). -/
def applyMappingsGo (db : DB) (course : Course) (mark_auto allow_overwrite_manual : Bool)
    (now : Nat) :
    List CourseRecommendationMapping → List CourseRecommendation →
    List (Option String × Option String × String) →
    Except MappingError (List CourseRecommendation × List (Option String × Option String × String))
  | [], recs, pairs => .ok (recs, pairs)
  | m :: rest, recs, pairs =>
    let learning_style := _normalize_key m.learning_style
    let mood := _normalize_key m.mood
    if truthyStr learning_style &&
        !((course.learning_style_categories.getD []).contains (learning_style.getD "")) then
      .error (.unknownLearningStyle (learning_style.getD ""))
    else if truthyStr mood && !((course.mood_labels.getD []).contains (mood.getD "")) then
      .error (.unknownMood (mood.getD ""))
    else
      match db.activities.find? (fun a => a.id == m.activity_id) with
      | none => .error (.activityNotFound m.activity_id)
      | some activity =>
        match recs.find? (mappingRowFilter course.id learning_style mood) with
        | some recommendation =>
          if !allow_overwrite_manual && !recommendation.is_auto then
            applyMappingsGo db course mark_auto allow_overwrite_manual now rest recs pairs
          else
            applyMappingsGo db course mark_auto allow_overwrite_manual now rest
              (updateFirst (mappingRowFilter course.id learning_style mood)
                (fun r => { r with activity_id := activity.id, is_auto := mark_auto,
                                   updated_at := now }) recs)
              (pairs ++ [(learning_style, mood, activity.id)])
        | none =>
          applyMappingsGo db course mark_auto allow_overwrite_manual now rest
            (recs ++ [{ course_id := course.id, learning_style := learning_style, mood := mood,
                        activity_id := activity.id, is_auto := mark_auto, updated_at := now }])
            (pairs ++ [(learning_style, mood, activity.id)])

/-- `_apply_recommendation_mappings`: validate and persist a manual
recommendation edit, returning the new table and the patched pairs, or the
first typed rejection. -/
def _apply_recommendation_mappings (db : DB) (course : Course)
    (mappings : List CourseRecommendationMapping) (mark_auto allow_overwrite_manual : Bool)
    (now : Nat) :
    Except MappingError (List CourseRecommendation × List (Option String × Option String × String)) :=
  applyMappingsGo db course mark_auto allow_overwrite_manual now mappings db.recommendations []

/-! ## Order facts about the Python string comparison -/

theorem strLeB_refl (l : List Char) : strLeB l l = true := by
  induction l with
  | nil => rfl
  | cons x xs ih => simp [strLeB, ih]

theorem strLtB_iff_not_le (a b : List Char) : strLtB a b = true ↔ strLeB b a = false := by
  induction a generalizing b with
  | nil =>
    cases b with
    | nil => simp [strLtB, strLeB]
    | cons y ys => simp [strLtB, strLeB]
  | cons x xs ih =>
    cases b with
    | nil => simp [strLtB, strLeB]
    | cons y ys =>
      by_cases hxy : x.toNat < y.toNat
      · have hyx : ¬ y.toNat < x.toNat := by omega
        simp [strLtB, strLeB, hxy, hyx]
      · by_cases hyx : y.toNat < x.toNat
        · simp [strLtB, strLeB, hxy, hyx]
        · simp [strLtB, strLeB, hxy, hyx, ih ys]

theorem strLtB_to_le {a b : List Char} (h : strLtB a b = true) : strLeB a b = true := by
  induction a generalizing b with
  | nil => rfl
  | cons x xs ih =>
    cases b with
    | nil => simp [strLtB] at h
    | cons y ys =>
      by_cases hxy : x.toNat < y.toNat
      · simp [strLeB, hxy]
      · by_cases hyx : y.toNat < x.toNat
        · simp [strLtB, hxy, hyx] at h
        · simp [strLtB, hxy, hyx] at h
          simp [strLeB, hxy, hyx, ih h]

theorem strLeB_trans {a b c : List Char} (h1 : strLeB a b = true) (h2 : strLeB b c = true) :
    strLeB a c = true := by
  induction a generalizing b c with
  | nil => rfl
  | cons x xs ih =>
    cases b with
    | nil => simp [strLeB] at h1
    | cons y ys =>
      cases c with
      | nil => simp [strLeB] at h2
      | cons z zs =>
        by_cases hxy : x.toNat < y.toNat
        · by_cases hyz : y.toNat < z.toNat
          · have hxz : x.toNat < z.toNat := by omega
            simp [strLeB, hxz]
          · by_cases hzy : z.toNat < y.toNat
            · simp [strLeB, hyz, hzy] at h2
            · have hxz : x.toNat < z.toNat := by omega
              simp [strLeB, hxz]
        · by_cases hyx : y.toNat < x.toNat
          · simp [strLeB, hxy, hyx] at h1
          · by_cases hyz : y.toNat < z.toNat
            · have hxz : x.toNat < z.toNat := by omega
              simp [strLeB, hxz]
            · by_cases hzy : z.toNat < y.toNat
              · simp [strLeB, hyz, hzy] at h2
              · have hxz : ¬ x.toNat < z.toNat := by omega
                have hzx : ¬ z.toNat < x.toNat := by omega
                simp only [strLeB, hxy, hyx, if_neg, if_false] at h1
                simp only [strLeB, hyz, hzy, if_neg, if_false] at h2
                simp only [strLeB, hxz, hzx, if_neg, if_false]
                exact ih h1 h2

theorem char_eq_of_toNat_eq {x y : Char} (h : x.toNat = y.toNat) : x = y := by
  apply Char.eq_of_val_eq
  apply UInt32.eq_of_val_eq
  exact Fin.val_injective h

theorem strLeB_antisymm {a b : List Char} (h1 : strLeB a b = true) (h2 : strLeB b a = true) :
    a = b := by
  induction a generalizing b with
  | nil =>
    cases b with
    | nil => rfl
    | cons y ys => simp [strLeB] at h2
  | cons x xs ih =>
    cases b with
    | nil => simp [strLeB] at h1
    | cons y ys =>
      by_cases hxy : x.toNat < y.toNat
      · have hyx : ¬ y.toNat < x.toNat := by omega
        simp [strLeB, hxy, hyx] at h2
      · by_cases hyx : y.toNat < x.toNat
        · simp [strLeB, hxy, hyx] at h1
        · have hx : x = y := char_eq_of_toNat_eq (by omega)
          simp only [strLeB, hxy, hyx, if_neg, if_false] at h1 h2
          rw [hx]
          exact congrArg (y :: ·) (ih h1 h2)

theorem pyLe_refl (s : String) : pyLe s s = true := strLeB_refl s.data

theorem pyLe_nil (s : String) : pyLe "" s = true := rfl

theorem pyLt_irrefl (s : String) : pyLt s s = false := by
  by_contra h
  have h' : strLtB s.data s.data = true := by
    revert h; unfold pyLt; cases strLtB s.data s.data <;> simp
  rw [strLtB_iff_not_le, strLeB_refl] at h'
  exact Bool.noConfusion h'

theorem pyLt_to_le {a b : String} (h : pyLt a b = true) : pyLe a b = true :=
  strLtB_to_le h

theorem pyLe_trans {a b c : String} (h1 : pyLe a b = true) (h2 : pyLe b c = true) :
    pyLe a c = true :=
  strLeB_trans h1 h2

theorem pyLe_antisymm {a b : String} (h1 : pyLe a b = true) (h2 : pyLe b a = true) : a = b := by
  cases a with
  | mk da =>
    cases b with
    | mk db => exact congrArg String.mk (strLeB_antisymm h1 h2)

theorem pyLe_of_not_lt {a b : String} (h : pyLt a b = false) : pyLe b a = true := by
  cases hle : pyLe b a
  · have : pyLt a b = true := (strLtB_iff_not_le a.data b.data).mpr hle
    rw [h] at this
    exact Bool.noConfusion this
  · rfl

/-! ## Claim C3: `determine_learning_style` -/

/-- The running best of the `determine_learning_style` loop dominates an
entry: strictly larger score, or equal score and a name that is not
lexicographically larger. -/
def dlsDom (best q : String × Int) : Prop :=
  q.2 < best.2 ∨ (q.2 = best.2 ∧ pyLe best.1 q.1 = true)

theorem dlsDom_refl (p : String × Int) : dlsDom p p :=
  Or.inr ⟨rfl, pyLe_refl p.1⟩

theorem dlsDom_trans {a b c : String × Int} (h1 : dlsDom a b) (h2 : dlsDom b c) : dlsDom a c := by
  rcases h1 with h | ⟨he, hle⟩ <;> rcases h2 with h' | ⟨he', hle'⟩
  · exact Or.inl (by omega)
  · exact Or.inl (by omega)
  · exact Or.inl (by omega)
  · exact Or.inr ⟨by omega, pyLe_trans hle hle'⟩

theorem dls_fold_spec (l : List (String × Int)) :
    ∀ bc bs, ∃ c' s',
      l.foldl dlsStep (some bc, some bs) = (some c', some s') ∧
      ((c', s') = (bc, bs) ∨ (c', s') ∈ l) ∧
      dlsDom (c', s') (bc, bs) ∧
      ∀ q ∈ l, dlsDom (c', s') q := by
  induction l with
  | nil =>
    intro bc bs
    exact ⟨bc, bs, rfl, Or.inl rfl, dlsDom_refl _, by simp⟩
  | cons p t ih =>
    intro bc bs
    rw [List.foldl_cons]
    by_cases hcond : p.2 > bs ∨ (p.2 = bs ∧ pyLt p.1 (pyOrBest (some bc) p.1) = true)
    · have hstep : dlsStep (some bc, some bs) p = (some p.1, some p.2) := by
        simp only [dlsStep, if_pos hcond]
      have hdom : dlsDom (p.1, p.2) (bc, bs) := by
        rcases hcond with h | ⟨he, hlt⟩
        · exact Or.inl h
        · by_cases hbc : bc = ""
          · rw [hbc] at hlt
            simp [pyOrBest, pyLt_irrefl] at hlt
          · simp only [pyOrBest, if_neg hbc] at hlt
            exact Or.inr ⟨he.symm, pyLt_to_le hlt⟩
      rw [hstep]
      obtain ⟨c', s', hfold, hmem, hdom0, hdoml⟩ := ih p.1 p.2
      refine ⟨c', s', hfold, ?_, dlsDom_trans hdom0 hdom, ?_⟩
      · rcases hmem with h | h
        · exact Or.inr (by rw [h, Prod.mk.eta]; exact List.mem_cons_self p t)
        · exact Or.inr (List.mem_cons_of_mem p h)
      · intro q hq
        rcases List.mem_cons.mp hq with h | h
        · rw [h, ← Prod.mk.eta (p := p)]
          exact hdom0
        · exact hdoml q h
    · have hstep : dlsStep (some bc, some bs) p = (some bc, some bs) := by
        simp only [dlsStep, if_neg hcond]
      have hdom : dlsDom (bc, bs) p := by
        push_neg at hcond
        obtain ⟨h1, h2⟩ := hcond
        rcases lt_or_eq_of_le h1 with hlt | heq
        · exact Or.inl hlt
        · have hlt' : pyLt p.1 (pyOrBest (some bc) p.1) = false := by
            cases hb : pyLt p.1 (pyOrBest (some bc) p.1)
            · rfl
            · exact absurd hb (h2 heq)
          by_cases hbc : bc = ""
          · exact Or.inr ⟨heq, hbc ▸ pyLe_nil p.1⟩
          · simp only [pyOrBest, if_neg hbc] at hlt'
            exact Or.inr ⟨heq, pyLe_of_not_lt hlt'⟩
      rw [hstep]
      obtain ⟨c', s', hfold, hmem, hdom0, hdoml⟩ := ih bc bs
      refine ⟨c', s', hfold, ?_, hdom0, ?_⟩
      · rcases hmem with h | h
        · exact Or.inl h
        · exact Or.inr (List.mem_cons_of_mem p h)
      · intro q hq
        rcases List.mem_cons.mp hq with h | h
        · rw [h]
          exact dlsDom_trans hdom0 hdom
        · exact hdoml q h

theorem dls_spec (l : List (String × Int)) (h : l ≠ []) :
    ∃ c s, determine_learning_style l = some c ∧ (c, s) ∈ l ∧
      ∀ q ∈ l, q.2 < s ∨ (q.2 = s ∧ pyLe c q.1 = true) := by
  match l with
  | p :: t =>
    obtain ⟨c', s', hfold, hmem, hdom0, hdoml⟩ := dls_fold_spec t p.1 p.2
    refine ⟨c', s', ?_, ?_, ?_⟩
    · unfold determine_learning_style
      rw [if_neg (by simp)]
      rw [List.foldl_cons]
      have hstep : dlsStep (none, none) p = (some p.1, some p.2) := rfl
      rw [hstep, hfold]
    · rcases hmem with hm | hm
      · rw [hm]
        exact List.mem_cons_self p t
      · exact List.mem_cons_of_mem p hm
    · intro q hq
      rcases List.mem_cons.mp hq with hh | hh
      · rw [hh]
        exact (by simpa [dlsDom] using hdom0)
      · exact hdoml q hh

theorem dls_opt_unique {l : List (String × Int)} {c₁ c₂ : String} {s₁ s₂ : Int}
    (m1 : (c₁, s₁) ∈ l) (o1 : ∀ q ∈ l, q.2 < s₁ ∨ (q.2 = s₁ ∧ pyLe c₁ q.1 = true))
    (m2 : (c₂, s₂) ∈ l) (o2 : ∀ q ∈ l, q.2 < s₂ ∨ (q.2 = s₂ ∧ pyLe c₂ q.1 = true)) :
    c₁ = c₂ ∧ s₁ = s₂ := by
  have h12 := o1 _ m2
  have h21 := o2 _ m1
  simp only at h12 h21
  rcases h12 with h | ⟨he, hle⟩ <;> rcases h21 with h' | ⟨he', hle'⟩
  · omega
  · omega
  · omega
  · exact ⟨pyLe_antisymm hle hle', he.symm⟩

/-- Claim C3: `determine_learning_style` returns, for every non-empty totals
map, the category with the highest total, breaking ties toward the
lexicographically smallest category name; it is deterministic (its result
depends only on which entries the map holds, not on their order); it returns
none exactly when the map is empty; and the spec's example
`{"Visual": 3, "Auditory": 3} → "Auditory"` holds. -/
theorem C3_determine_learning_style_correct :
    (∀ l : List (String × Int), determine_learning_style l = none ↔ l = []) ∧
    (∀ (l : List (String × Int)) (c : String), determine_learning_style l = some c →
      ∃ s, (c, s) ∈ l ∧ ∀ q ∈ l, q.2 < s ∨ (q.2 = s ∧ pyLe c q.1 = true)) ∧
    (∀ l₁ l₂ : List (String × Int), (∀ q, q ∈ l₁ ↔ q ∈ l₂) →
      determine_learning_style l₁ = determine_learning_style l₂) ∧
    determine_learning_style [("Visual", 3), ("Auditory", 3)] = some "Auditory" := by
  refine ⟨?_, ?_, ?_, by decide⟩
  · intro l
    constructor
    · intro h
      by_contra hne
      obtain ⟨c, s, hc, _, _⟩ := dls_spec l hne
      rw [h] at hc
      exact Option.noConfusion hc
    · intro h
      rw [h]
      rfl
  · intro l c h
    have hne : l ≠ [] := by
      intro he
      rw [he] at h
      exact Option.noConfusion h
    obtain ⟨c', s', hc', hm, ho⟩ := dls_spec l hne
    rw [h] at hc'
    have hcc := Option.some.inj hc'
    subst hcc
    exact ⟨s', hm, ho⟩
  · intro l₁ l₂ hiff
    rcases eq_or_ne l₁ [] with h1 | h1
    · have h2 : l₂ = [] := by
        rw [h1] at hiff
        cases l₂ with
        | nil => rfl
        | cons x t => exact absurd ((hiff x).mpr (List.mem_cons_self x t)) (by simp)
      rw [h1, h2]
    · have h2 : l₂ ≠ [] := by
        intro he
        cases l₁ with
        | nil => exact h1 rfl
        | cons x t =>
          have hx := (hiff x).mp (List.mem_cons_self x t)
          rw [he] at hx
          exact absurd hx (by simp)
      obtain ⟨c₁, s₁, hc₁, hm₁, ho₁⟩ := dls_spec l₁ h1
      obtain ⟨c₂, s₂, hc₂, hm₂, ho₂⟩ := dls_spec l₂ h2
      have hm₂' : (c₂, s₂) ∈ l₁ := (hiff _).mpr hm₂
      have ho₂' : ∀ q ∈ l₁, q.2 < s₂ ∨ (q.2 = s₂ ∧ pyLe c₂ q.1 = true) :=
        fun q hq => ho₂ q ((hiff q).mp hq)
      obtain ⟨hceq, _⟩ := dls_opt_unique hm₁ ho₁ hm₂' ho₂'
      rw [hc₁, hc₂, hceq]

/-- Witness for C3: the characterisation applied at a concrete permuted pair
of totals maps. -/
theorem C3_determine_learning_style_correct_witness :
    determine_learning_style [("Visual", 3), ("Auditory", 3)]
      = determine_learning_style [("Auditory", 3), ("Visual", 3)] :=
  C3_determine_learning_style_correct.2.2.1 _ _
    (by intro q; simp [List.mem_cons]; tauto)

/-! ## List infrastructure lemmas -/

theorem updateFirst_length {α : Type} (p : α → Bool) (f : α → α) (l : List α) :
    (updateFirst p f l).length = l.length := by
  induction l with
  | nil => rfl
  | cons x t ih =>
    by_cases hx : p x
    · simp [updateFirst, hx]
    · simp [updateFirst, hx, ih]

theorem find?_updateFirst_set {α : Type} (p : α → Bool) (f : α → α) (l : List α) (r : α)
    (h : l.find? p = some r) :
    ∃ i, ∃ hi : i < l.length, l.get ⟨i, hi⟩ = r ∧ updateFirst p f l = l.set i (f r) := by
  induction l with
  | nil => simp at h
  | cons x t ih =>
    by_cases hx : p x
    · rw [List.find?_cons_of_pos _ hx] at h
      have hxr := Option.some.inj h
      subst hxr
      exact ⟨0, by simp, rfl, by simp [updateFirst, hx]⟩
    · rw [List.find?_cons_of_neg _ hx] at h
      obtain ⟨i, hi, hget, hupd⟩ := ih h
      refine ⟨i + 1, by simpa using Nat.succ_lt_succ hi, by simpa using hget, ?_⟩
      simp [updateFirst, hx, hupd]

theorem countP_updateFirst {α : Type} (p q : α → Bool) (f : α → α) (l : List α)
    (hf : ∀ x, p x = true → q (f x) = q x) :
    (updateFirst p f l).countP q = l.countP q := by
  induction l with
  | nil => rfl
  | cons x t ih =>
    by_cases hx : p x
    · simp [updateFirst, hx, List.countP_cons, hf x hx]
    · simp [updateFirst, hx, List.countP_cons, ih]

theorem find?_updateFirst {α : Type} (p : α → Bool) (f : α → α) (l : List α) (r : α)
    (h : l.find? p = some r) (hp : p (f r) = true) :
    (updateFirst p f l).find? p = some (f r) := by
  induction l with
  | nil => simp at h
  | cons x t ih =>
    by_cases hx : p x
    · rw [List.find?_cons_of_pos _ hx] at h
      have hxr := Option.some.inj h
      subst hxr
      simp [updateFirst, hx, List.find?_cons_of_pos _ hp]
    · rw [List.find?_cons_of_neg _ hx] at h
      simp [updateFirst, hx, List.find?_cons_of_neg _ hx, ih h]

theorem mem_updateFirst {α : Type} {p : α → Bool} {f : α → α} {l : List α} {s : α}
    (h : s ∈ updateFirst p f l) :
    s ∈ l ∨ ∃ x, x ∈ l ∧ p x = true ∧ s = f x := by
  induction l with
  | nil => simp [updateFirst] at h
  | cons x t ih =>
    by_cases hx : p x
    · simp only [updateFirst, if_pos hx] at h
      rcases List.mem_cons.mp h with hh | hh
      · exact Or.inr ⟨x, List.mem_cons_self x t, hx, hh⟩
      · exact Or.inl (List.mem_cons_of_mem x hh)
    · simp only [updateFirst, if_neg hx] at h
      rcases List.mem_cons.mp h with hh | hh
      · exact Or.inl (hh ▸ List.mem_cons_self x t)
      · rcases ih hh with h' | ⟨y, hy, hpy, hs⟩
        · exact Or.inl (List.mem_cons_of_mem x h')
        · exact Or.inr ⟨y, List.mem_cons_of_mem x hy, hpy, hs⟩

/-! ## Claim C7: the stored submission status -/

theorem upsert_status_eq (answers : Option (List (String × String))) :
    upsert_status answers = "completed" := by
  unfold upsert_status
  exact ite_self _

/-- Claim C7: `upsert_submission` stores status "completed" whenever a mood
value is present (the status computation returns "completed" on every input,
mood-only check-ins included), and only an entirely empty answer set could be
stored as "skipped" — vacuously so, since no row written by this function ever
carries status "skipped": every row of the output table is either untouched
from the input or has status "completed". -/
theorem C7_status_completed :
    (∀ answers, upsert_status answers = "completed") ∧
    (∀ (submissions : List Submission) (session : ClassSession) (course : Course)
        (mood : String) (answers : Option (List (String × String)))
        (total_scores : Option (List (String × Int))) (is_baseline_update : Bool)
        (student : Option Student) (guest_id guest_name : Option String)
        (survey_snapshot : Option SurveySnapshot) (fresh_id : String) (s : Submission),
      s ∈ upsert_submission submissions session course mood answers total_scores
            is_baseline_update student guest_id guest_name survey_snapshot fresh_id →
      s ∈ submissions ∨ s.status = "completed") := by
  refine ⟨upsert_status_eq, ?_⟩
  intro submissions session course mood answers total_scores is_baseline_update student
    guest_id guest_name survey_snapshot fresh_id s hs
  unfold upsert_submission at hs
  cases hf : submissions.find? (submissionKeyFilter session student guest_id) with
  | some r =>
    rw [hf] at hs
    rcases mem_updateFirst hs with h | ⟨x, _, _, hsx⟩
    · exact Or.inl h
    · refine Or.inr ?_
      rw [hsx]
      exact upsert_status_eq answers
  | none =>
    rw [hf] at hs
    rcases List.mem_append.mp hs with h | h
    · exact Or.inl h
    · refine Or.inr ?_
      rw [List.mem_singleton.mp h]
      exact upsert_status_eq answers

/-- The row inserted by the C7 witness call. -/
def exSubNew : Submission :=
  { id := "sub1", session_id := "s1", course_id := "c1", student_id := none,
    guest_id := some "g1", guest_name := some "Pat", mood := "happy", answers_json := none,
    total_scores := none, is_baseline_update := false, status := "completed" }

def exCourse : Course :=
  { id := "c1", learning_style_categories := some ["Visual", "Auditory"],
    mood_labels := some ["happy", "sad"] }

def exSession : ClassSession := { id := "s1" }

/-- Witness for C7: a concrete mood-only check-in is stored with status
"completed". -/
theorem C7_status_completed_witness :
    exSubNew ∈ upsert_submission [] exSession exCourse "happy" none none false none
      (some "g1") (some "Pat") none "sub1" ∧
    (exSubNew ∈ ([] : List Submission) ∨ exSubNew.status = "completed") :=
  ⟨by decide,
   C7_status_completed.2 [] exSession exCourse "happy" none none false none (some "g1")
     (some "Pat") none "sub1" exSubNew (by decide)⟩

/-! ## Claim C10: repeat submissions keep the identity fields -/

/-- Claim C10: when `upsert_submission` finds an existing submission for the
(session, participant) key, the result replaces just that row by a copy whose
course_id, mood, answers_json, total_scores, is_baseline_update and status are
overwritten, while id, session_id, student_id, guest_id and guest_name are
taken unchanged from the stored row — so a different guest_name supplied on a
repeat submission never replaces the stored one — and every other row is
untouched. -/
theorem C10_repeat_submission_preserves_identity
    (submissions : List Submission) (session : ClassSession) (course : Course) (mood : String)
    (answers : Option (List (String × String))) (total_scores : Option (List (String × Int)))
    (is_baseline_update : Bool) (student : Option Student)
    (guest_id guest_name : Option String) (survey_snapshot : Option SurveySnapshot)
    (fresh_id : String) (r : Submission)
    (h : submissions.find? (submissionKeyFilter session student guest_id) = some r) :
    ∃ i, ∃ hi : i < submissions.length,
      submissions.get ⟨i, hi⟩ = r ∧
      upsert_submission submissions session course mood answers total_scores
          is_baseline_update student guest_id guest_name survey_snapshot fresh_id
        = submissions.set i
            { r with course_id := course.id, mood := mood,
                     answers_json := upsert_answers_payload answers survey_snapshot,
                     total_scores := total_scores,
                     is_baseline_update := is_baseline_update,
                     status := upsert_status answers } := by
  obtain ⟨i, hi, hget, hupd⟩ :=
    find?_updateFirst_set (submissionKeyFilter session student guest_id)
      (fun s => { s with course_id := course.id, mood := mood,
                         answers_json := upsert_answers_payload answers survey_snapshot,
                         total_scores := total_scores,
                         is_baseline_update := is_baseline_update,
                         status := upsert_status answers })
      submissions r h
  refine ⟨i, hi, hget, ?_⟩
  have hstep : upsert_submission submissions session course mood answers total_scores
      is_baseline_update student guest_id guest_name survey_snapshot fresh_id
      = updateFirst (submissionKeyFilter session student guest_id)
          (fun s => { s with course_id := course.id, mood := mood,
                             answers_json := upsert_answers_payload answers survey_snapshot,
                             total_scores := total_scores,
                             is_baseline_update := is_baseline_update,
                             status := upsert_status answers }) submissions := by
    unfold upsert_submission
    rw [h]
  rw [hstep, hupd]

/-- A stored submission row used by the C10 witness. -/
def exSubStored : Submission :=
  { id := "sub1", session_id := "s1", course_id := "c1", student_id := none,
    guest_id := some "g1", guest_name := some "Pat", mood := "happy", answers_json := none,
    total_scores := none, is_baseline_update := false, status := "completed" }

/-- Witness for C10: a repeat guest submission with a different guest_name
mutates the stored row in place, keeping id and guest_name. -/
theorem C10_repeat_submission_preserves_identity_witness :
    ([exSubStored].find? (submissionKeyFilter exSession none (some "g1")) = some exSubStored) ∧
    (∃ i, ∃ hi : i < [exSubStored].length,
      [exSubStored].get ⟨i, hi⟩ = exSubStored ∧
      upsert_submission [exSubStored] exSession exCourse "sad" none none true none
          (some "g1") (some "Other") none "sub2"
        = [exSubStored].set i
            { exSubStored with course_id := exCourse.id, mood := "sad",
                               answers_json := upsert_answers_payload none none,
                               total_scores := none,
                               is_baseline_update := true,
                               status := upsert_status none }) :=
  ⟨by decide,
   C10_repeat_submission_preserves_identity [exSubStored] exSession exCourse "sad" none none
     true none (some "g1") (some "Other") none "sub2" exSubStored (by decide)⟩

/-! ## Claim C4: per-key idempotence of `upsert_submission` -/

theorem find?_append_none {α : Type} {p : α → Bool} {l l' : List α}
    (h : l.find? p = none) : (l ++ l').find? p = l'.find? p := by
  induction l with
  | nil => rfl
  | cons x t ih =>
    by_cases hx : p x
    · rw [List.find?_cons_of_pos _ hx] at h
      exact Option.noConfusion h
    · rw [List.find?_cons_of_neg _ hx] at h
      simpa [List.find?_cons_of_neg _ hx] using ih h

/-- Claim C4: `upsert_submission` is idempotent per (session, participant)
key.  Starting from a table with no row for the key, two calls for the same
key (same session, same student or same guest id) leave exactly one row for
that key; the second call mutates rather than inserts (no length change), and
the row found for the key carries the values of the second call — in
particular its mood. -/
theorem C4_upsert_idempotent
    (submissions : List Submission) (session : ClassSession) (course₁ course₂ : Course)
    (mood₁ mood₂ : String) (answers₁ answers₂ : Option (List (String × String)))
    (ts₁ ts₂ : Option (List (String × Int))) (b₁ b₂ : Bool) (student : Option Student)
    (guest_id gname₁ gname₂ : Option String) (snap₁ snap₂ : Option SurveySnapshot)
    (id₁ id₂ : String) (t1 t2 : List Submission)
    (h0 : submissions.countP (submissionKeyFilter session student guest_id) = 0)
    (ht1 : t1 = upsert_submission submissions session course₁ mood₁ answers₁ ts₁ b₁ student
                  guest_id gname₁ snap₁ id₁)
    (ht2 : t2 = upsert_submission t1 session course₂ mood₂ answers₂ ts₂ b₂ student
                  guest_id gname₂ snap₂ id₂) :
    t2.countP (submissionKeyFilter session student guest_id) = 1 ∧
    t2.length = t1.length ∧
    ∃ s, t2.find? (submissionKeyFilter session student guest_id) = some s ∧
      s.mood = mood₂ ∧ s.course_id = course₂.id ∧
      s.answers_json = upsert_answers_payload answers₂ snap₂ ∧
      s.total_scores = ts₂ ∧ s.is_baseline_update = b₂ := by
  have hnone : submissions.find? (submissionKeyFilter session student guest_id) = none :=
    List.find?_eq_none.mpr (List.countP_eq_zero.mp h0)
  have ht1' : t1 = submissions ++
      [upsertNewRow session course₁ mood₁ answers₁ ts₁ b₁ student guest_id gname₁ snap₁ id₁] := by
    rw [ht1]
    unfold upsert_submission
    rw [hnone]
  have hpnew : submissionKeyFilter session student guest_id
      (upsertNewRow session course₁ mood₁ answers₁ ts₁ b₁ student guest_id gname₁ snap₁ id₁)
        = true := by
    cases student <;> simp [submissionKeyFilter, upsertNewRow]
  have hfind1 : t1.find? (submissionKeyFilter session student guest_id)
      = some (upsertNewRow session course₁ mood₁ answers₁ ts₁ b₁ student guest_id gname₁
                snap₁ id₁) := by
    rw [ht1', find?_append_none hnone]
    simp [List.find?_cons_of_pos _ hpnew]
  have ht2' : t2 = updateFirst (submissionKeyFilter session student guest_id)
      (fun s => { s with course_id := course₂.id, mood := mood₂,
                         answers_json := upsert_answers_payload answers₂ snap₂,
                         total_scores := ts₂, is_baseline_update := b₂,
                         status := upsert_status answers₂ }) t1 := by
    rw [ht2]
    unfold upsert_submission
    rw [hfind1]
  have hcount1 : t1.countP (submissionKeyFilter session student guest_id) = 1 := by
    rw [ht1', List.countP_append, h0, List.countP_cons, List.countP_nil]
    simp [hpnew]
  have hkey_pres : ∀ x : Submission, submissionKeyFilter session student guest_id x = true →
      submissionKeyFilter session student guest_id
          { x with course_id := course₂.id, mood := mood₂,
                   answers_json := upsert_answers_payload answers₂ snap₂,
                   total_scores := ts₂, is_baseline_update := b₂,
                   status := upsert_status answers₂ }
        = submissionKeyFilter session student guest_id x := by
    intro x _
    cases student <;> rfl
  refine ⟨?_, ?_, ?_⟩
  · rw [ht2', countP_updateFirst _ _ _ _ hkey_pres, hcount1]
  · rw [ht2', updateFirst_length]
  · refine ⟨{ upsertNewRow session course₁ mood₁ answers₁ ts₁ b₁ student guest_id gname₁
                snap₁ id₁ with
              course_id := course₂.id, mood := mood₂,
              answers_json := upsert_answers_payload answers₂ snap₂,
              total_scores := ts₂, is_baseline_update := b₂,
              status := upsert_status answers₂ }, ?_, rfl, rfl, rfl, rfl, rfl⟩
    rw [ht2']
    refine find?_updateFirst _ _ _ _ hfind1 ?_
    rw [hkey_pres _ hpnew]
    exact hpnew

/-- Witness for C4: two concrete guest submissions with different moods leave
a single row holding the second call's values. -/
theorem C4_upsert_idempotent_witness :
    (([] : List Submission).countP (submissionKeyFilter exSession none (some "g1")) = 0) ∧
    ((upsert_submission (upsert_submission [] exSession exCourse "happy" none none false none
          (some "g1") (some "Pat") none "sub1") exSession exCourse "sad" none none false none
          (some "g1") (some "Other") none "sub2").countP
        (submissionKeyFilter exSession none (some "g1")) = 1) :=
  ⟨by decide,
   (C4_upsert_idempotent [] exSession exCourse exCourse "happy" "sad" none none none none
      false false none (some "g1") (some "Pat") (some "Other") none none "sub1" "sub2"
      _ _ (by decide) rfl rfl).1⟩

/-! ## Claim C2: profile versioning -/

/-- Claim C2: after `update_course_student_profile` runs, exactly one profile
row for the (course, participant) pair has `is_current = true` — the newly
inserted row, carrying the new category, the score snapshot and a reference to
the triggering submission — while every previously existing row for the pair
is set to `is_current = false` in the same update, other rows being untouched.
Applied to the state after a first baseline submission, this gives the spec's
instance: after two baseline submissions the single current row references the
second submission. -/
theorem C2_profile_versioning
    (profiles : List CourseStudentProfile) (course : Course) (submission : Submission)
    (learning_style : String) (total_scores : List (String × Int)) (student : Option Student)
    (guest_id : Option String) (t' : List CourseStudentProfile)
    (ht : t' = update_course_student_profile profiles course submission learning_style
                 total_scores student guest_id) :
    t'.countP (fun p => profileKeyFilter course student guest_id p && p.is_current) = 1 ∧
    t'.find? (fun p => profileKeyFilter course student guest_id p && p.is_current)
      = some (profileNewRow course submission learning_style total_scores student guest_id) ∧
    (∀ i, ∀ hi : i < profiles.length,
      t'[i]? = some (if profileKeyFilter course student guest_id (profiles.get ⟨i, hi⟩)
        then { profiles.get ⟨i, hi⟩ with is_current := false }
        else profiles.get ⟨i, hi⟩)) ∧
    t'.length = profiles.length + 1 := by
  subst ht
  have hunf : update_course_student_profile profiles course submission learning_style
      total_scores student guest_id
      = profiles.map
          (fun p => if profileKeyFilter course student guest_id p
            then { p with is_current := false } else p) ++
        [profileNewRow course submission learning_style total_scores student guest_id] := rfl
  have hzero : ∀ a ∈ profiles.map
      (fun p => if profileKeyFilter course student guest_id p
        then { p with is_current := false } else p),
      ¬ (profileKeyFilter course student guest_id a && a.is_current) = true := by
    intro a ha
    obtain ⟨p, _, rfl⟩ := List.mem_map.mp ha
    by_cases hpred : profileKeyFilter course student guest_id p = true
    · simp [hpred]
    · simp only [Bool.not_eq_true] at hpred
      simp [hpred]
  have hpnew : ((fun p => profileKeyFilter course student guest_id p && p.is_current)
      (profileNewRow course submission learning_style total_scores student guest_id)) = true := by
    cases student <;> simp [profileKeyFilter, profileNewRow]
  refine ⟨?_, ?_, ?_, ?_⟩
  · rw [hunf, List.countP_append, List.countP_eq_zero.mpr hzero, List.countP_cons,
      List.countP_nil]
    simp [hpnew]
  · rw [hunf, find?_append_none (List.find?_eq_none.mpr hzero)]
    exact List.find?_cons_of_pos _ hpnew
  · intro i hi
    have hi' : i < (profiles.map
        (fun p => if profileKeyFilter course student guest_id p
          then { p with is_current := false } else p)).length := by
      simpa using hi
    rw [hunf, List.getElem?_append_left hi', List.getElem?_map, List.getElem?_eq_getElem hi]
    simp [List.get_eq_getElem]
  · rw [hunf]
    simp

/-- A pre-existing current profile row for the C2 witness's pair. -/
def exProfOld : CourseStudentProfile :=
  { course_id := "c1", student_id := none, guest_id := some "g1",
    latest_submission_id := some "sub1", profile_category := "Visual",
    profile_scores_json := [("Visual", 3)], is_current := true }

/-- Witness for C2: a second baseline submission retires the concrete old
current row and leaves exactly one current row referencing it. -/
theorem C2_profile_versioning_witness :
    ((update_course_student_profile [exProfOld] exCourse exSubStored "Auditory"
        [("Auditory", 4)] none (some "g1")).countP
      (fun p => profileKeyFilter exCourse none (some "g1") p && p.is_current) = 1) ∧
    ((update_course_student_profile [exProfOld] exCourse exSubStored "Auditory"
        [("Auditory", 4)] none (some "g1")).find?
      (fun p => profileKeyFilter exCourse none (some "g1") p && p.is_current)
        = some (profileNewRow exCourse exSubStored "Auditory" [("Auditory", 4)] none
            (some "g1"))) :=
  ⟨(C2_profile_versioning [exProfOld] exCourse exSubStored "Auditory" [("Auditory", 4)] none
      (some "g1") _ rfl).1,
   (C2_profile_versioning [exProfOld] exCourse exSubStored "Auditory" [("Auditory", 4)] none
      (some "g1") _ rfl).2.1⟩

/-! ## Claim C5: the default maintainer never touches manual rows -/

/-- `t'` extends `t` and keeps every manually curated (`is_auto = false`) row
of `t` unchanged, at its position. -/
def preservesManual (t t' : List CourseRecommendation) : Prop :=
  t.length ≤ t'.length ∧
  ∀ i, ∀ hi : i < t.length, (t.get ⟨i, hi⟩).is_auto = false →
    t'[i]? = some (t.get ⟨i, hi⟩)

theorem preservesManual_refl (t : List CourseRecommendation) : preservesManual t t :=
  ⟨le_refl _, fun _ hi _ => List.getElem?_eq_getElem hi⟩

theorem preservesManual_trans {t₁ t₂ t₃ : List CourseRecommendation}
    (h1 : preservesManual t₁ t₂) (h2 : preservesManual t₂ t₃) : preservesManual t₁ t₃ := by
  refine ⟨le_trans h1.1 h2.1, ?_⟩
  intro i hi hman
  have hmid := h1.2 i hi hman
  obtain ⟨hi2, hval⟩ := List.getElem?_eq_some.mp hmid
  have hget2 : t₂.get ⟨i, hi2⟩ = t₁.get ⟨i, hi⟩ := by
    rw [List.get_eq_getElem, hval]
  have := h2.2 i hi2 (by rw [hget2]; exact hman)
  rw [hget2] at this
  exact this

theorem refreshAuto_manual {r : CourseRecommendation} (h : r.is_auto = false)
    (aid : String) (now : Nat) : refreshAuto aid now r = r := by
  simp [refreshAuto, h]

theorem preservesManual_updateFirst (p : CourseRecommendation → Bool) (aid : String) (now : Nat)
    (t : List CourseRecommendation) :
    preservesManual t (updateFirst p (refreshAuto aid now) t) := by
  induction t with
  | nil => exact ⟨le_refl _, fun _ hi _ => absurd hi (by simp)⟩
  | cons x t ih =>
    by_cases hx : p x
    · refine ⟨by simp [updateFirst, hx], ?_⟩
      intro i hi hman
      match i with
      | 0 =>
        simp only [updateFirst, if_pos hx]
        simp only [List.get] at hman
        simp [refreshAuto_manual hman]
      | Nat.succ j =>
        simp only [updateFirst, if_pos hx, List.getElem?_cons_succ]
        exact List.getElem?_eq_getElem (by simpa using hi)
    · refine ⟨by simp [updateFirst, hx, (ih).1], ?_⟩
      intro i hi hman
      match i with
      | 0 => simp [updateFirst, hx]
      | Nat.succ j =>
        simp only [updateFirst, if_neg hx, List.getElem?_cons_succ]
        exact ih.2 j (by simpa using hi) hman

theorem preservesManual_append (t l : List CourseRecommendation) :
    preservesManual t (t ++ l) := by
  refine ⟨by simp, ?_⟩
  intro i hi _
  rw [List.getElem?_append_left hi]
  exact List.getElem?_eq_getElem hi

theorem preservesManual_foldl {β : Type} (step : List CourseRecommendation → β →
    List CourseRecommendation) (h : ∀ acc x, preservesManual acc (step acc x)) :
    ∀ (l : List β) (t : List CourseRecommendation), preservesManual t (l.foldl step t) := by
  intro l
  induction l with
  | nil => exact fun t => preservesManual_refl t
  | cons x xs ih =>
    intro t
    exact preservesManual_trans (h t x) (ih (step t x))

theorem preservesManual_global (settings : Settings) (db : DB) (course_id : String) (now : Nat) :
    preservesManual db.recommendations (ensure_course_global_default settings db course_id now)
    := by
  unfold ensure_course_global_default
  split
  · exact preservesManual_refl _
  · split
    · exact preservesManual_updateFirst _ _ _ _
    · exact preservesManual_append _ _

theorem preservesManual_mood (recs : List CourseRecommendation) (course_id : String)
    (patched_pairs : List (Option String × Option String × String)) (now : Nat) :
    preservesManual recs (ensure_mood_defaults recs course_id patched_pairs now) := by
  unfold ensure_mood_defaults
  refine preservesManual_foldl _ ?_ _ recs
  intro acc kv
  dsimp only
  split
  · exact preservesManual_updateFirst _ _ _ _
  · exact preservesManual_append _ _

theorem preservesManual_style (recs : List CourseRecommendation) (course_id : String)
    (patched_pairs : List (Option String × Option String × String)) (now : Nat) :
    preservesManual recs (ensure_style_defaults recs course_id patched_pairs now) := by
  unfold ensure_style_defaults
  refine preservesManual_foldl _ ?_ _ recs
  intro acc kv
  dsimp only
  split
  · exact preservesManual_updateFirst _ _ _ _
  · exact preservesManual_append _ _

/-- Claim C5: `ensure_defaults_for_course` never overwrites a manually curated
recommendation row: every row with `is_auto = false` is still present, at its
position, with all fields identical, whatever pairs were just edited — the
maintainer only inserts missing wildcard rows or refreshes rows whose
`is_auto` flag is set. -/
theorem C5_defaults_never_overwrite_manual
    (settings : Settings) (db : DB) (course_id : String)
    (patched_pairs : List (Option String × Option String × String)) (now : Nat)
    (i : Nat) (hi : i < db.recommendations.length)
    (hman : (db.recommendations.get ⟨i, hi⟩).is_auto = false) :
    (ensure_defaults_for_course settings db course_id patched_pairs now)[i]?
      = some (db.recommendations.get ⟨i, hi⟩) := by
  have hall : preservesManual db.recommendations
      (ensure_defaults_for_course settings db course_id patched_pairs now) := by
    unfold ensure_defaults_for_course
    by_cases hp : patched_pairs.isEmpty
    · rw [if_pos hp]
      exact preservesManual_global settings db course_id now
    · rw [if_neg hp]
      exact preservesManual_trans (preservesManual_global settings db course_id now)
        (preservesManual_trans (preservesManual_mood _ course_id patched_pairs now)
          (preservesManual_style _ course_id patched_pairs now))
  exact hall.2 i hi hman

def exActivityA : Activity := { id := "a1", tags := [], updated_at := 1 }

/-- A manually curated (null, "sad") recommendation row, as in the spec's
non-destructiveness example. -/
def exManualRec : CourseRecommendation :=
  { course_id := "c1", learning_style := none, mood := some "sad",
    activity_id := "aM", is_auto := false, updated_at := 2 }

def exSettings : Settings := { system_default_activity_id := none }

def exDB5 : DB := { recommendations := [exManualRec], activities := [exActivityA] }

/-- Witness for C5: running the maintainer with an unrelated edited pair
leaves the concrete manual (null, "sad") row unchanged. -/
theorem C5_defaults_never_overwrite_manual_witness :
    exManualRec.is_auto = false ∧
    (ensure_defaults_for_course exSettings exDB5 "c1" [(some "Visual", some "happy", "a1")] 9)[0]?
      = some exManualRec :=
  ⟨by decide,
   C5_defaults_never_overwrite_manual exSettings exDB5 "c1"
     [(some "Visual", some "happy", "a1")] 9 0 (by decide) (by decide)⟩

/-! ## Claim C1: monotonic specificity of the resolver -/

theorem firstByUpdatedDesc_const {l : List CourseRecommendation} {r : CourseRecommendation}
    (hne : l ≠ []) (hall : ∀ x ∈ l, x = r) : firstByUpdatedDesc l = some r := by
  induction l with
  | nil => exact absurd rfl hne
  | cons x t ih =>
    cases t with
    | nil =>
      have hx : x = r := hall x (List.mem_cons_self x [])
      simp [firstByUpdatedDesc, hx]
    | cons y u =>
      have hrec : firstByUpdatedDesc (y :: u) = some r :=
        ih (by simp) (fun z hz => hall z (List.mem_cons_of_mem x hz))
      have hx : x = r := hall x (List.mem_cons_self _ _)
      rw [firstByUpdatedDesc, hrec, hx]
      exact ite_self _

theorem query_exact_hit (db : DB) (c S M : String) (seed : Nat) (r : CourseRecommendation)
    (hmem : r ∈ db.recommendations) (hc : r.course_id = c)
    (hls : r.learning_style = some S) (hm : r.mood = some M)
    (hnS : _normalize_default (some S) = some S)
    (hnM : _normalize_default (some M) = some M)
    (huniq : ∀ r' ∈ db.recommendations, r'.course_id = c → r'.learning_style = some S →
      r'.mood = some M → r' = r) :
    _query_recommendation db c (some S) (some M) false seed = some r := by
  unfold _query_recommendation
  rw [if_neg (by simp)]
  have hpred : recommendationFilter c (some S) (some M) r = true := by
    simp [recommendationFilter, hnS, hnM, keyFilter, hc, hls, hm]
  apply firstByUpdatedDesc_const
  · exact List.ne_nil_of_mem (List.mem_filter.mpr ⟨hmem, hpred⟩)
  · intro x hx
    obtain ⟨hxmem, hxpred⟩ := List.mem_filter.mp hx
    simp only [recommendationFilter, hnS, hnM, keyFilter, Bool.and_eq_true, beq_iff_eq]
      at hxpred
    exact huniq x hxmem hxpred.1.1 hxpred.1.2 hxpred.2

/-- Claim C1: if a recommendation row with exact key (learning_style = S,
mood = M) exists for the course (the unique such row, per the table's
uniqueness constraint) and its activity resolves, then `resolve` called with
mood M and known learning style S returns tier "style+mood" with that row's
activity — the lower tiers are never consulted. -/
theorem C1_exact_style_mood_wins
    (settings : Settings) (db : DB) (c S M : String) (seed : Nat)
    (r : CourseRecommendation) (a : Activity)
    (hmem : r ∈ db.recommendations) (hc : r.course_id = c)
    (hls : r.learning_style = some S) (hm : r.mood = some M)
    (hnS : _normalize_default (some S) = some S)
    (hnM : _normalize_default (some M) = some M)
    (huniq : ∀ r' ∈ db.recommendations, r'.course_id = c → r'.learning_style = some S →
      r'.mood = some M → r' = r)
    (hact : rec_activity db r = some a) :
    get_recommended_activity settings db c (some M) (some S) seed = ("style+mood", some a) := by
  have hq := query_exact_hit db c S M seed r hmem hc hls hm hnS hnM huniq
  have hS0 : S ≠ "" := by
    intro h
    rw [h] at hnS
    rw [show _normalize_default (some "") = (none : Option String) from by decide] at hnS
    exact Option.noConfusion hnS
  unfold get_recommended_activity
  rw [hq]
  simp [truthyStr, hS0, hact]

/-- The exact (Visual, happy) row of the C1 witness database. -/
def exExactRec : CourseRecommendation :=
  { course_id := "c1", learning_style := some "Visual", mood := some "happy",
    activity_id := "a1", is_auto := false, updated_at := 5 }

/-- A newer (Visual, null) style-default row that must lose to the exact row. -/
def exStyleDefaultRec : CourseRecommendation :=
  { course_id := "c1", learning_style := some "Visual", mood := none,
    activity_id := "aB", is_auto := false, updated_at := 9 }

def exActivityB : Activity := { id := "aB", tags := [], updated_at := 1 }

def exDB1 : DB :=
  { recommendations := [exExactRec, exStyleDefaultRec],
    activities := [exActivityA, exActivityB] }

/-- Witness for C1: the spec's example — rows (Visual, happy)→A and
(Visual, null)→B; resolving (happy, Visual) returns A at tier "style+mood". -/
theorem C1_exact_style_mood_wins_witness :
    exExactRec ∈ exDB1.recommendations ∧
    get_recommended_activity exSettings exDB1 "c1" (some "happy") (some "Visual") 0
      = ("style+mood", some exActivityA) :=
  ⟨by decide,
   C1_exact_style_mood_wins exSettings exDB1 "c1" "Visual" "happy" 0 exExactRec exActivityA
     (by decide) (by decide) (by decide) (by decide) (by decide) (by decide) (by decide)
     (by decide)⟩

/-! ## Claim C6: wildcard normalization -/

/-- A (null, "happy") mood-default row for the C6 database. -/
def exMoodRec : CourseRecommendation :=
  { course_id := "c1", learning_style := none, mood := some "happy",
    activity_id := "a1", is_auto := false, updated_at := 5 }

def exDB6 : DB := { recommendations := [exMoodRec], activities := [exActivityA] }

/-- Counterexample to C6 as stated: the sentinel "*" in the learning_style
position is *not* interchangeable with null — the resolver checks truthiness
of the raw argument before normalizing, so with a (null, "happy") row the call
with learning_style "*" returns tier "style+mood" while the call with null
returns tier "mood-default" (same activity, different matchTier). -/
theorem C6_sentinel_style_changes_tier :
    get_recommended_activity exSettings exDB6 "c1" (some "happy") (some "*") 0
      ≠ get_recommended_activity exSettings exDB6 "c1" (some "happy") none 0 := by
  decide

theorem query_mood_congr (db : DB) (c : String) (ls : Option String) {m₁ m₂ : Option String}
    (h : _normalize_default m₁ = _normalize_default m₂) (rz : Bool) (seed : Nat) :
    _query_recommendation db c ls m₁ rz seed = _query_recommendation db c ls m₂ rz seed := by
  unfold _query_recommendation recommendationFilter
  rw [h]

/-- Claim C6 (amended): sentinel values are normalized wherever a key is
matched against rows.  Any two mood arguments with the same normalization
(null, "", "*", "any", "ANY", "default" all normalize to the wildcard) give
identical (matchTier, activity) results; an empty-string learning style
behaves exactly like null; and the spec's instances
resolve(course, "any"/""/"*", None) = resolve(course, None, None) hold.  (A
non-empty sentinel learning style, by contrast, passes the raw truthiness
guard and selects the style tiers — see the counterexample.) -/
theorem C6_wildcard_normalization_amended :
    (∀ (settings : Settings) (db : DB) (c : String) (ls m₁ m₂ : Option String) (seed : Nat),
      _normalize_default m₁ = _normalize_default m₂ →
      get_recommended_activity settings db c m₁ ls seed
        = get_recommended_activity settings db c m₂ ls seed) ∧
    (∀ (settings : Settings) (db : DB) (c : String) (m : Option String) (seed : Nat),
      get_recommended_activity settings db c m (some "") seed
        = get_recommended_activity settings db c m none seed) ∧
    (∀ (settings : Settings) (db : DB) (c : String) (seed : Nat),
      get_recommended_activity settings db c (some "any") none seed
        = get_recommended_activity settings db c none none seed ∧
      get_recommended_activity settings db c (some "") none seed
        = get_recommended_activity settings db c none none seed ∧
      get_recommended_activity settings db c (some "*") none seed
        = get_recommended_activity settings db c none none seed) := by
  have hcongr : ∀ (settings : Settings) (db : DB) (c : String) (ls m₁ m₂ : Option String)
      (seed : Nat), _normalize_default m₁ = _normalize_default m₂ →
      get_recommended_activity settings db c m₁ ls seed
        = get_recommended_activity settings db c m₂ ls seed := by
    intro settings db c ls m₁ m₂ seed h
    unfold get_recommended_activity
    rw [query_mood_congr db c ls h false seed, query_mood_congr db c none h false seed]
  refine ⟨hcongr, ?_, ?_⟩
  · intro settings db c m seed
    unfold get_recommended_activity
    rfl
  · intro settings db c seed
    exact ⟨hcongr settings db c none (some "any") none seed (by decide),
           hcongr settings db c none (some "") none seed (by decide),
           hcongr settings db c none (some "*") none seed (by decide)⟩

/-- Witness for C6 (amended): a concrete sentinel mood resolves identically to
the null mood. -/
theorem C6_wildcard_normalization_amended_witness :
    get_recommended_activity exSettings exDB6 "c1" (some "any") none 0
      = get_recommended_activity exSettings exDB6 "c1" none none 0 :=
  C6_wildcard_normalization_amended.1 exSettings exDB6 "c1" none (some "any") none 0
    (by decide)

/-! ## Claim C9: unknown learning-style keys reject the edit -/

theorem normalize_key_ne_empty {v : Option String} {s : String}
    (h : _normalize_key v = some s) : s ≠ "" := by
  cases v with
  | none => exact Option.noConfusion h
  | some x =>
    simp only [_normalize_key] at h
    split at h
    · exact Option.noConfusion h
    · rename_i hc
      push_neg at hc
      have hs := Option.some.inj h
      intro he
      exact hc.1 (by rw [hs, he])

theorem applyMappings_head_unknown_style
    (db : DB) (course : Course) (ma ao : Bool) (now : Nat)
    (m : CourseRecommendationMapping) (s : String)
    (hn : _normalize_key m.learning_style = some s)
    (hu : s ∉ course.learning_style_categories.getD [])
    (rest : List CourseRecommendationMapping) (recs : List CourseRecommendation)
    (pairs : List (Option String × Option String × String)) :
    applyMappingsGo db course ma ao now (m :: rest) recs pairs
      = .error (.unknownLearningStyle s) := by
  have hs0 : s ≠ "" := normalize_key_ne_empty hn
  simp only [applyMappingsGo]
  rw [hn]
  rw [if_pos (by simp [truthyStr, hs0, hu])]
  rfl

theorem applyMappings_error_of_unknown_style
    (db : DB) (course : Course) (ma ao : Bool) (now : Nat) :
    ∀ (mappings : List CourseRecommendationMapping) (recs : List CourseRecommendation)
      (pairs : List (Option String × Option String × String))
      (m : CourseRecommendationMapping) (s : String),
      m ∈ mappings → _normalize_key m.learning_style = some s →
      s ∉ course.learning_style_categories.getD [] →
      ∃ e, applyMappingsGo db course ma ao now mappings recs pairs = .error e := by
  intro mappings
  induction mappings with
  | nil =>
    intro recs pairs m s hm
    exact absurd hm (by simp)
  | cons x rest ih =>
    intro recs pairs m s hm hn hu
    rcases List.mem_cons.mp hm with rfl | hm'
    · exact ⟨_, applyMappings_head_unknown_style db course ma ao now m s hn hu rest recs pairs⟩
    · simp only [applyMappingsGo]
      split
      · exact ⟨_, rfl⟩
      · split
        · exact ⟨_, rfl⟩
        · split
          · exact ⟨_, rfl⟩
          · split
            · split
              · exact ih _ _ m s hm' hn hu
              · exact ih _ _ m s hm' hn hu
            · exact ih _ _ m s hm' hn hu

/-- Claim C9: a manual recommendation-mapping edit containing a non-wildcard
learning_style key that is not among the course's known categories is always
rejected with a typed error, never silently ignored; when the offending
mapping is reached first, the error is the UNKNOWN_LEARNING_STYLE condition
naming that key. -/
theorem C9_unknown_learning_style_rejected
    (db : DB) (course : Course) (mappings : List CourseRecommendationMapping)
    (mark_auto allow_overwrite_manual : Bool) (now : Nat)
    (m : CourseRecommendationMapping) (s : String)
    (hm : m ∈ mappings) (hn : _normalize_key m.learning_style = some s)
    (hu : s ∉ course.learning_style_categories.getD []) :
    (∃ e, _apply_recommendation_mappings db course mappings mark_auto allow_overwrite_manual
        now = .error e) ∧
    (∀ rest, _apply_recommendation_mappings db course (m :: rest) mark_auto
        allow_overwrite_manual now = .error (.unknownLearningStyle s)) :=
  ⟨applyMappings_error_of_unknown_style db course mark_auto allow_overwrite_manual now
     mappings db.recommendations [] m s hm hn hu,
   fun rest => applyMappings_head_unknown_style db course mark_auto allow_overwrite_manual now
     m s hn hu rest db.recommendations []⟩

/-- A manual mapping naming a learning style the course does not know. -/
def exBadMapping : CourseRecommendationMapping :=
  { learning_style := some "Kinesthetic", mood := none, activity_id := "a1" }

/-- Witness for C9: the concrete edit with an unknown "Kinesthetic" style is
rejected with the UNKNOWN_LEARNING_STYLE condition. -/
theorem C9_unknown_learning_style_rejected_witness :
    exBadMapping ∈ [exBadMapping] ∧
    _apply_recommendation_mappings exDB5 exCourse [exBadMapping] true false 7
      = .error (.unknownLearningStyle "Kinesthetic") :=
  ⟨by decide,
   (C9_unknown_learning_style_rejected exDB5 exCourse [exBadMapping] true false 7 exBadMapping
      "Kinesthetic" (by decide) (by decide) (by decide)).2 []⟩

/-! ## Claim C8: `compute_total_scores` keys and bounds -/

theorem lookup_cons_eq {α : Type} (c : String) (v : α) (t : List (String × α)) :
    List.lookup c ((c, v) :: t) = some v := by
  simp [List.lookup]

theorem lookup_cons_ne {α : Type} {c k : String} (h : ¬ c = k) (v : α) (t : List (String × α)) :
    List.lookup c ((k, v) :: t) = List.lookup c t := by
  simp [List.lookup, beq_eq_false_iff_ne.mpr h]

theorem lookup_assocSet {α : Type} (t : List (String × α)) (k : String) (v : α) (c : String) :
    (assocSet t k v).lookup c = if c = k then some v else t.lookup c := by
  induction t with
  | nil =>
    by_cases hck : c = k
    · subst hck
      simp [assocSet, lookup_cons_eq]
    · simp [assocSet, lookup_cons_ne hck, hck]
  | cons p t' ih =>
    obtain ⟨k', v'⟩ := p
    by_cases hkk : k' = k
    · subst hkk
      by_cases hck : c = k'
      · subst hck
        simp [assocSet, lookup_cons_eq]
      · simp [assocSet, lookup_cons_ne hck, hck]
    · by_cases hck' : c = k'
      · subst hck'
        have hck : ¬ c = k := fun h => hkk (h ▸ rfl)
        simp [assocSet, hkk, lookup_cons_eq, hck]
      · simp [assocSet, hkk, lookup_cons_ne hck', ih]

theorem lookup_append {α : Type} (t l : List (String × α)) (c : String) :
    (t ++ l).lookup c = match t.lookup c with
      | some v => some v
      | none => l.lookup c := by
  induction t with
  | nil => simp [List.lookup]
  | cons p t' ih =>
    obtain ⟨k', v'⟩ := p
    by_cases hck : c = k'
    · subst hck
      simp [lookup_cons_eq]
    · simp [lookup_cons_ne hck, ih]

theorem lookup_isSome_ensureKey {t : List (String × Int)} {c : String} (k : String)
    (h : (t.lookup c).isSome = true) : ((ensureKey t k).lookup c).isSome = true := by
  unfold ensureKey
  split
  · exact h
  · rw [lookup_append]
    obtain ⟨v, hv⟩ := Option.isSome_iff_exists.mp h
    rw [hv]
    simp

theorem lookup_isSome_addToKey {t : List (String × Int)} {c : String} (k : String) (s : Int)
    (h : (t.lookup c).isSome = true) : ((addToKey t k s).lookup c).isSome = true := by
  unfold addToKey
  rw [lookup_assocSet]
  by_cases hck : c = k
  · simp [hck]
  · simpa [hck] using h

theorem lookup_isSome_addOptionScores {t : List (String × Int)} {c : String}
    (scores : List (String × Int)) (h : (t.lookup c).isSome = true) :
    ((addOptionScores t scores).lookup c).isSome = true := by
  unfold addOptionScores
  induction scores generalizing t with
  | nil => exact h
  | cons cs rest ih =>
    rw [List.foldl_cons]
    exact ih (lookup_isSome_addToKey cs.1 cs.2 (lookup_isSome_ensureKey cs.1 h))

theorem lookup_map_zero_of_mem {l : List String} {c : String} (h : c ∈ l) :
    ((l.map (fun c => (c, (0 : Int)))).lookup c) = some 0 := by
  induction l with
  | nil => exact absurd h (by simp)
  | cons x t ih =>
    by_cases hcx : c = x
    · subst hcx
      simp [lookup_cons_eq]
    · rcases List.mem_cons.mp h with h' | hm
      · exact absurd h' hcx
      · simp [lookup_cons_ne hcx, ih hm]

theorem lookup_map_zero_val {l : List String} {c : String} {v : Int}
    (h : ((l.map (fun c => (c, (0 : Int)))).lookup c) = some v) : v = 0 := by
  induction l with
  | nil => simp [List.lookup] at h
  | cons x t ih =>
    by_cases hcx : c = x
    · subst hcx
      rw [List.map_cons, lookup_cons_eq] at h
      exact (Option.some.inj h).symm
    · rw [List.map_cons, lookup_cons_ne hcx] at h
      exact ih h

theorem find_selected_option_mem {qid selected : String} :
    ∀ {i : Nat} {opts : List SurveyOption} {o : SurveyOption},
      find_selected_option qid selected i opts = some o → o ∈ opts := by
  intro i opts
  induction opts generalizing i with
  | nil => intro o h; exact Option.noConfusion h
  | cons x t ih =>
    intro o h
    unfold find_selected_option at h
    split at h
    · exact (Option.some.inj h) ▸ List.mem_cons_self x t
    · exact List.mem_cons_of_mem x (ih h)

/-- The bounded-value invariant for a running totals map. -/
def totalsNonneg (t : List (String × Int)) : Prop :=
  ∀ c v, t.lookup c = some v → 0 ≤ v

theorem totalsNonneg_ensureKey {t : List (String × Int)} (k : String)
    (h : totalsNonneg t) : totalsNonneg (ensureKey t k) := by
  unfold ensureKey
  split
  · exact h
  · intro c v hv
    rw [lookup_append] at hv
    cases hl : t.lookup c with
    | some w =>
      rw [hl] at hv
      have hv' : some w = some v := hv
      cases Option.some.inj hv'
      exact h c _ hl
    | none =>
      rw [hl] at hv
      by_cases hck : c = k
      · subst hck
        rw [show (List.lookup c [(c, (0 : Int))] : Option Int)
            = some 0 from lookup_cons_eq c 0 []] at hv
        have hv' := Option.some.inj hv
        omega
      · rw [lookup_cons_ne hck] at hv
        simp [List.lookup] at hv

theorem totalsNonneg_addToKey {t : List (String × Int)} (k : String) {s : Int}
    (hs : 0 ≤ s) (h : totalsNonneg t) : totalsNonneg (addToKey t k s) := by
  intro c v hv
  unfold addToKey at hv
  rw [lookup_assocSet] at hv
  by_cases hck : c = k
  · rw [if_pos hck] at hv
    have hv' := Option.some.inj hv
    cases hl : t.lookup k with
    | some w =>
      have hw := h k w hl
      rw [hl] at hv'
      simp only [Option.getD] at hv'
      omega
    | none =>
      rw [hl] at hv'
      simp only [Option.getD] at hv'
      omega
  · rw [if_neg hck] at hv
    exact h c v hv

theorem totalsNonneg_addOptionScores {t : List (String × Int)}
    {scores : List (String × Int)} (hs : ∀ cs ∈ scores, 0 ≤ cs.2) (h : totalsNonneg t) :
    totalsNonneg (addOptionScores t scores) := by
  unfold addOptionScores
  induction scores generalizing t with
  | nil => exact h
  | cons cs rest ih =>
    rw [List.foldl_cons]
    exact ih (fun x hx => hs x (List.mem_cons_of_mem cs hx))
      (totalsNonneg_addToKey cs.1 (hs cs (List.mem_cons_self cs rest))
        (totalsNonneg_ensureKey cs.1 h))

theorem lookup_isSome_scoreQuestionStep {totals : List (String × Int)} {c : String}
    (answers : List (String × String)) (question : SurveyQuestion)
    (h : (totals.lookup c).isSome = true) :
    (((scoreQuestionStep answers totals question).lookup c)).isSome = true := by
  unfold scoreQuestionStep
  split
  · exact h
  · split
    · exact h
    · split
      · exact h
      · split
        · exact h
        · split
          · exact h
          · exact lookup_isSome_addOptionScores _ h

theorem totalsNonneg_scoreQuestionStep {totals : List (String × Int)}
    (answers : List (String × String)) (question : SurveyQuestion)
    (hq : ∀ o ∈ question.options, ∀ cs ∈ o.scores, 0 ≤ cs.2)
    (h : totalsNonneg totals) : totalsNonneg (scoreQuestionStep answers totals question) := by
  unfold scoreQuestionStep
  split
  · exact h
  · split
    · exact h
    · split
      · exact h
      · split
        · exact h
        · split
          · exact h
          · rename_i opt hfind
            exact totalsNonneg_addOptionScores
              (fun cs hcs => hq opt (find_selected_option_mem hfind) cs hcs) h

/-- Counterexample to C8 as stated: with an option whose score map is
`{"A": 1, "B": -2}` (legal input — survey validation only demands exactly one
positive score per option), the participant's matching answer drives the
returned total for category "B" to -2, below zero. -/
theorem C8_negative_total_reachable :
    "B" ∈ extract_learning_style_categories
      [{ id := some "q1", question_id := none, text := some "Q", question := none,
         options := [{ id := some "o1", option_id := none, value := none,
                       label := some "L1", text := none,
                       scores := [("A", 1), ("B", -2)] }] }] ∧
    (compute_total_scores
        { questions := [{ id := some "q1", question_id := none, text := some "Q",
                          question := none,
                          options := [{ id := some "o1", option_id := none, value := none,
                                        label := some "L1", text := none,
                                        scores := [("A", 1), ("B", -2)] }] }] }
        [("q1", "o1")]).lookup "B" = some (-2) := by
  decide

/-- Claim C8 (amended): for every (snapshot, answers) input the returned map
contains every category produced by `extract_learning_style_categories` as a
key; and whenever every score in the snapshot's options is non-negative, every
value of the returned map is at least zero.  (Unconditionally the claim is
false: a negative option score — which survey validation admits — can drive a
total below zero, see the counterexample.) -/
theorem C8_total_scores_keys_and_bounds (snapshot : SurveySnapshot)
    (answers : List (String × String)) :
    (∀ c ∈ extract_learning_style_categories snapshot.questions,
      ((compute_total_scores snapshot answers).lookup c).isSome = true) ∧
    ((∀ q ∈ snapshot.questions, ∀ o ∈ q.options, ∀ cs ∈ o.scores, 0 ≤ cs.2) →
      ∀ c v, (compute_total_scores snapshot answers).lookup c = some v → 0 ≤ v) := by
  constructor
  · intro c hc
    unfold compute_total_scores
    have hinit : (((extract_learning_style_categories snapshot.questions).map
        (fun c => (c, (0 : Int)))).lookup c).isSome = true := by
      rw [lookup_map_zero_of_mem hc]
      rfl
    generalize (extract_learning_style_categories snapshot.questions).map
      (fun c => (c, (0 : Int))) = totals0 at hinit ⊢
    generalize snapshot.questions = qs
    induction qs generalizing totals0 with
    | nil => exact hinit
    | cons q rest ih =>
      rw [List.foldl_cons]
      exact ih _ (lookup_isSome_scoreQuestionStep answers q hinit)
  · intro hscores c v hv
    unfold compute_total_scores at hv
    have hinv : totalsNonneg ((extract_learning_style_categories snapshot.questions).map
        (fun c => (c, (0 : Int)))) := by
      intro c' v' hv'
      rw [lookup_map_zero_val hv']
    revert hv
    generalize (extract_learning_style_categories snapshot.questions).map
      (fun c => (c, (0 : Int))) = totals0 at hinv ⊢
    revert hscores
    generalize snapshot.questions = qs
    intro hscores hv
    have hfold : ∀ (l : List SurveyQuestion) (totals : List (String × Int)),
        (∀ q ∈ l, ∀ o ∈ q.options, ∀ cs ∈ o.scores, 0 ≤ cs.2) → totalsNonneg totals →
        totalsNonneg (l.foldl (scoreQuestionStep answers) totals) := by
      intro l
      induction l with
      | nil => exact fun totals _ h => h
      | cons q rest ih =>
        intro totals hq hinv'
        rw [List.foldl_cons]
        exact ih _ (fun x hx => hq x (List.mem_cons_of_mem q hx))
          (totalsNonneg_scoreQuestionStep answers q
            (fun o ho cs hcs => hq q (List.mem_cons_self q rest) o ho cs hcs) hinv')
    exact hfold qs totals0 hscores hinv c v hv

/-- A snapshot whose scores are all non-negative, for the C8 witness. -/
def exSnapPos : SurveySnapshot :=
  { questions := [{ id := some "q1", question_id := none, text := some "Q", question := none,
                    options := [{ id := some "o1", option_id := none, value := none,
                                  label := some "L1", text := none,
                                  scores := [("A", 1), ("B", 0)] }] }] }

/-- Witness for C8 (amended): on a concrete non-negative snapshot the totals
map holds the extracted category "A" and its value is non-negative. -/
theorem C8_total_scores_keys_and_bounds_witness :
    (((compute_total_scores exSnapPos [("q1", "o1")]).lookup "A").isSome = true) ∧
    (0 : Int) ≤ 1 :=
  ⟨(C8_total_scores_keys_and_bounds exSnapPos [("q1", "o1")]).1 "A" (by decide),
   (C8_total_scores_keys_and_bounds exSnapPos [("q1", "o1")]).2 (by decide) "A" 1 (by decide)⟩
